import Mathlib

/-!
Shallow embedding of the resilient API access layer of the freee-MCP-Scalar
repository: request cache (src/services/cache.js), token-bucket rate limiter
and 429 handling (src/utils/rateLimit.js), retry controller
(src/utils/retry.js), credential store (src/services/tokenStorage.js), token
lifecycle manager (src/services/tokenManager.js) and audit log
(src/services/auditLog.js), together with proofs that settle the spec claims
about these components.

Modelling conventions: JavaScript numbers that hold millisecond timestamps,
delays and token counts are embedded as rationals; integer-valued fields are
embedded as integers; JSON serialisation of the fixed-shape objects built by
the source is embedded character by character; SHA-256 digests are embedded as
an abstract function parameter of the development (collision resistance of the
digest becomes an injectivity hypothesis where a claim needs it).
-/

namespace FreeeSpec

/-! ## JavaScript values and JSON serialisation

The cache key derivation and the audit hash both call JSON.stringify on small
fixed-shape objects.  We embed the values that can occur there and the exact
character stream JSON.stringify produces for them. -/

/-- A JavaScript value as it can appear as a query-parameter value or an audit
field: null, undefined, boolean, (integer) number, or string. -/
inductive JVal where
  | jnull : JVal
  | jundef : JVal
  | jbool : Bool → JVal
  | jnum : Int → JVal
  | jstr : String → JVal
  deriving DecidableEq, Repr

/-- The decimal digit character for a digit value below ten. -/
def digitChar : Nat → Char
  | 0 => '0'
  | 1 => '1'
  | 2 => '2'
  | 3 => '3'
  | 4 => '4'
  | 5 => '5'
  | 6 => '6'
  | 7 => '7'
  | 8 => '8'
  | _ => '9'

/-- The lowercase hexadecimal digit character for a value below sixteen,
as produced by the \u00XX escapes of JSON.stringify. -/
def hexDigit : Nat → Char
  | 0 => '0'
  | 1 => '1'
  | 2 => '2'
  | 3 => '3'
  | 4 => '4'
  | 5 => '5'
  | 6 => '6'
  | 7 => '7'
  | 8 => '8'
  | 9 => '9'
  | 10 => 'a'
  | 11 => 'b'
  | 12 => 'c'
  | 13 => 'd'
  | 14 => 'e'
  | _ => 'f'

/-- Decimal representation of a natural number, most significant digit first,
as JavaScript prints an integral number. -/
def natChars (n : Nat) : List Char :=
  if n = 0 then ['0'] else ((Nat.digits 10 n).reverse).map digitChar

/-- Decimal representation of an integer, as JavaScript prints it. -/
def intChars (n : Int) : List Char :=
  if n < 0 then '-' :: natChars n.natAbs else natChars n.toNat

/-- The escape sequence JSON.stringify emits for one character inside a string
literal: quote and backslash get two-character escapes, the named control
characters get \b \t \n \f \r, any other control character gets \u00XX, and
every other character is emitted verbatim. -/
def escChar (c : Char) : List Char :=
  if c = '"' then ['\\', '"']
  else if c = '\\' then ['\\', '\\']
  else if c = '\x08' then ['\\', 'b']
  else if c = '\t' then ['\\', 't']
  else if c = '\n' then ['\\', 'n']
  else if c = '\x0c' then ['\\', 'f']
  else if c = '\r' then ['\\', 'r']
  else if c.toNat < 32 then ['\\', 'u', '0', '0', hexDigit (c.toNat / 16), hexDigit (c.toNat % 16)]
  else [c]

/-- JSON string-body escaping, character by character. -/
def escape : List Char → List Char
  | [] => []
  | c :: r => escChar c ++ escape r

/-- A JSON string literal: opening quote, escaped body, closing quote. -/
def jstrChars (s : String) : List Char :=
  '"' :: (escape s.data ++ ['"'])

/-- JSON serialisation of a nullable string field (null or a string literal). -/
def optJsonChars : Option String → List Char
  | none => "null".data
  | some s => jstrChars s

/-- JSON serialisation of one JavaScript value.  An undefined value never
reaches this function: JSON.stringify drops undefined-valued properties, which
the object serialiser below models by skipping them. -/
def jvalChars : JVal → List Char
  | JVal.jnull => "null".data
  | JVal.jundef => []
  | JVal.jbool true => "true".data
  | JVal.jbool false => "false".data
  | JVal.jnum n => intChars n
  | JVal.jstr s => jstrChars s

/-- JSON serialisation of an object given as an ordered list of properties,
exactly as JSON.stringify prints it: braces, quoted keys, colon, comma
separators, no whitespace; properties whose value is undefined are dropped. -/
def jsonObjChars (l : List (String × JVal)) : List Char :=
  let entries := (l.filter (fun kv => kv.2 ≠ JVal.jundef)).map
    (fun kv => jstrChars kv.1 ++ ':' :: jvalChars kv.2)
  '\x7b' :: (List.intercalate [','] entries ++ ['\x7d'])

/-! ## Request cache (src/services/cache.js)

generateCacheKey sorts the parameter keys, keeps only bindings whose value is
neither undefined nor null, JSON-encodes the endpoint together with the sorted
object, and hashes the result.  A JavaScript object is embedded as an
association list in insertion order; the theorems that need key uniqueness
state it as a Nodup hypothesis.  The SHA-256 digest is an abstract parameter
`digest`; key equality only ever uses that it is a function. -/

/-- The sorted, filtered parameter object that generateCacheKey builds with
Object.keys(params).sort() and the reduce that drops undefined and null
values. -/
def filteredSortedParams (params : List (String × JVal)) : List (String × JVal) :=
  let sortedKeys := List.insertionSort (fun a b : String => a ≤ b) (params.map Prod.fst)
  sortedKeys.filterMap (fun k =>
    match params.lookup k with
    | some v => if v ≠ JVal.jundef ∧ v ≠ JVal.jnull then some (k, v) else none
    | none => none)

/-- The character stream generateCacheKey feeds to the SHA-256 digest:
the endpoint, a colon, and the JSON encoding of the sorted filtered params. -/
def cacheKeyInput (endpoint : String) (params : List (String × JVal)) : List Char :=
  endpoint.data ++ ':' :: jsonObjChars (filteredSortedParams params)

/-- generateCacheKey from src/services/cache.js, with the SHA-256 hex digest
abstracted as `digest`. -/
def generateCacheKey {κ : Type} (digest : List Char → κ) (endpoint : String)
    (params : List (String × JVal)) : κ :=
  digest (cacheKeyInput endpoint params)

/-- One row of the cache table (cache.db): endpoint, payload, creation and
expiry timestamps in epoch milliseconds, and access statistics. -/
structure CacheRow (π : Type) where
  endpoint : String
  data : π
  created_at : ℚ
  expires_at : ℚ
  access_count : Nat
  last_accessed : ℚ
  deriving DecidableEq, Repr

/-- Lookup of a row by primary key in the cache table, embedded as an
association list keyed by the cache key. -/
def lookupRow {κ π : Type} [DecidableEq κ] : List (κ × CacheRow π) → κ → Option (CacheRow π)
  | [], _ => none
  | kv :: r, k => if kv.1 = k then some kv.2 else lookupRow r k

/-- INSERT OR REPLACE keyed by the cache key: replace the existing row in
place if the key is present, otherwise add a new row. -/
def upsertRow {κ π : Type} [DecidableEq κ] (store : List (κ × CacheRow π)) (k : κ)
    (row : CacheRow π) : List (κ × CacheRow π) :=
  if store.any (fun kv => kv.1 = k) then
    store.map (fun kv => if kv.1 = k then (k, row) else kv)
  else
    (k, row) :: store

/-- saveToCache from src/services/cache.js: derive the key, then INSERT OR
REPLACE a row with created_at = now, expires_at = now + ttl, access_count 0 and
last_accessed = now. -/
def saveToCache {κ π : Type} [DecidableEq κ] (digest : List Char → κ)
    (store : List (κ × CacheRow π)) (endpoint : String) (params : List (String × JVal))
    (d : π) (ttl now : ℚ) : List (κ × CacheRow π) :=
  upsertRow store (generateCacheKey digest endpoint params)
    { endpoint := endpoint, data := d, created_at := now, expires_at := now + ttl,
      access_count := 0, last_accessed := now }

/-- What getFromCache returns on a hit: the payload together with cached_at
and expires_at metadata. -/
structure CacheHit (π : Type) where
  data : π
  cached_at : ℚ
  expires_at : ℚ
  deriving DecidableEq, Repr

/-- getFromCache from src/services/cache.js: SELECT the row whose key matches
and whose expires_at is strictly greater than now; on a hit, increment the
access count, stamp last_accessed and record a hit statistic (final Bool
true); on a miss or an expired row, record a miss statistic (final Bool
false). -/
def getFromCache {κ π : Type} [DecidableEq κ] (digest : List Char → κ)
    (store : List (κ × CacheRow π)) (endpoint : String) (params : List (String × JVal))
    (now : ℚ) : Option (CacheHit π) × List (κ × CacheRow π) × Bool :=
  let key := generateCacheKey digest endpoint params
  match lookupRow store key with
  | some row =>
    if now < row.expires_at then
      (some { data := row.data, cached_at := row.created_at, expires_at := row.expires_at },
       store.map (fun kv =>
         if kv.1 = key then
           (key, { kv.2 with access_count := kv.2.access_count + 1, last_accessed := now })
         else kv),
       true)
    else
      (none, store, false)
  | none => (none, store, false)

/-! ## Token-bucket rate limiter (src/utils/rateLimit.js)

The RateLimiter state holds the capacity, the refill rate in tokens per
second, the current token count and the last refill instant; times are epoch
milliseconds.  refill and tryAcquire are direct embeddings.  acquire refills,
consumes a token if at least one is available, and otherwise sleeps for
(1 - tokens) / refillRate * 1000 milliseconds and then calls itself again;
because other tasks may consume tokens while it sleeps, the token count it
observes at each self-invocation is environment-controlled, so acquire is
embedded as a recursion over the list of observations (tokens, lastRefill,
now) seen at successive invocations. -/

/-- The mutable fields of a RateLimiter instance. -/
structure BucketState where
  maxTokens : ℚ
  refillRate : ℚ
  tokens : ℚ
  lastRefill : ℚ
  deriving DecidableEq, Repr

/-- RateLimiter.refill: add elapsed seconds times the refill rate, capped at
the capacity, and stamp the refill instant. -/
def refill (s : BucketState) (now : ℚ) : BucketState :=
  let elapsed := (now - s.lastRefill) / 1000
  let tokensToAdd := elapsed * s.refillRate
  { s with tokens := min s.maxTokens (s.tokens + tokensToAdd), lastRefill := now }

/-- RateLimiter.tryAcquire: refill, then consume one token if at least one is
available, reporting whether a token was granted. -/
def tryAcquire (s : BucketState) (now : ℚ) : Bool × BucketState :=
  let s1 := refill s now
  if 1 ≤ s1.tokens then (true, { s1 with tokens := s1.tokens - 1 }) else (false, s1)

/-- One invocation-to-invocation transition of a bucket: either a bare refill
at an instant not before the last refill, or a tryAcquire (an acquire
iteration performs exactly the same state change: refill, then decrement when
a token is available). -/
inductive BucketStep : BucketState → BucketState → Prop where
  | refillStep (s : BucketState) (now : ℚ) (h : s.lastRefill ≤ now) :
      BucketStep s (refill s now)
  | tryAcquireStep (s : BucketState) (now : ℚ) (h : s.lastRefill ≤ now) :
      BucketStep s (tryAcquire s now).2

/-- The bucket invariant claimed by the spec, together with nonnegativity of
the refill rate, which the constructor establishes and no operation changes. -/
def BucketInv (s : BucketState) : Prop :=
  0 ≤ s.tokens ∧ s.tokens ≤ s.maxTokens ∧ 0 ≤ s.refillRate

/-- RateLimiter.acquire, run against the sequence of (tokens, lastRefill,
now) observations made at its successive self-invocations (other callers may
change the bucket while it sleeps, so the observations are inputs).  Returns
the number of nested self-invocations performed before a token was granted
together with the sleep durations, or none when the observation list ends
before a token is available.  Each sleep is
(1 - tokens) / refillRate * 1000 milliseconds, computed from the refilled
token count, exactly as in the source. -/
def acquireGo (cap rate : ℚ) : List (ℚ × ℚ × ℚ) → Option (Nat × List ℚ)
  | [] => none
  | o :: rest =>
    let t := (refill ⟨cap, rate, o.1, o.2.1⟩ o.2.2).tokens
    if 1 ≤ t then some (0, [])
    else
      match acquireGo cap rate rest with
      | some (d, ws) => some (d + 1, ((1 - t) / rate * 1000) :: ws)
      | none => none

/-! ## Retry controller (src/utils/retry.js)

retryWithBackoff attempts the work, and on failure, while the attempt count
has not reached maxRetries and shouldRetry approves, sleeps the backoff delay
and tries again; on exhaustion it raises a wrapping error carrying the attempt
count and the last underlying error; when shouldRetry rejects, the original
error is rethrown unwrapped.  Math.random() is embedded as a parameter giving
the random sample drawn at each attempt. -/

/-- The options record of retryWithBackoff with the source defaults. -/
structure RetryOptions where
  maxRetries : Nat := 3
  initialDelay : ℚ := 1000
  maxDelay : ℚ := 30000
  factor : ℚ := 2
  jitter : Bool := true
  deriving Repr

/-- The defaulted options object of retryWithBackoff. -/
def defaultRetryOptions : RetryOptions := {}

/-- The delay slept before the retry that follows a failed attempt:
min(initialDelay * factor ^ attempt, maxDelay), scaled by
0.5 + random * 0.5 when jitter is on. -/
def backoffDelay (opts : RetryOptions) (rand : Nat → ℚ) (attempt : Nat) : ℚ :=
  let d := min (opts.initialDelay * opts.factor ^ attempt) opts.maxDelay
  if opts.jitter then d * (0.5 + rand attempt * 0.5) else d

/-- How one call to retryWithBackoff ends: a successful result, the wrapping
error raised on exhaustion (carrying the attempt count and the last underlying
error as its cause), or the original error rethrown when shouldRetry
rejected it. -/
inductive RetryOutcome (ε α : Type) where
  | ok : α → RetryOutcome ε α
  | exhausted : Nat → ε → RetryOutcome ε α
  | aborted : ε → RetryOutcome ε α
  deriving DecidableEq, Repr

/-- The while loop of retryWithBackoff from a given attempt number: run the
work, and on failure break to the wrapping error once attempt has reached
maxRetries, rethrow when shouldRetry rejects, and otherwise sleep the backoff
delay and continue with attempt + 1.  Also returns how many times the work was
invoked and the list of delays slept. -/
def retryGo {ε α : Type} (fn : Nat → Except ε α) (shouldRetry : ε → Nat → Bool)
    (opts : RetryOptions) (rand : Nat → ℚ) (attempt : Nat) :
    RetryOutcome ε α × Nat × List ℚ :=
  match fn attempt with
  | Except.ok a => (RetryOutcome.ok a, 1, [])
  | Except.error e =>
    if h : opts.maxRetries ≤ attempt then
      (RetryOutcome.exhausted attempt e, 1, [])
    else if shouldRetry e attempt then
      let d := backoffDelay opts rand attempt
      let rest := retryGo fn shouldRetry opts rand (attempt + 1)
      (rest.1, rest.2.1 + 1, d :: rest.2.2)
    else
      (RetryOutcome.aborted e, 1, [])
termination_by opts.maxRetries - attempt
decreasing_by simp_wf; omega

/-- retryWithBackoff: the loop started at attempt 0. -/
def retryWithBackoff {ε α : Type} (fn : Nat → Except ε α) (shouldRetry : ε → Nat → Bool)
    (opts : RetryOptions) (rand : Nat → ℚ) : RetryOutcome ε α × Nat × List ℚ :=
  retryGo fn shouldRetry opts rand 0

/-! ## Rate-limit response handling (src/utils/rateLimit.js, handleRateLimit)

On a 429 response, handleRateLimit derives a wait from the Retry-After header
(integer seconds, or an HTTP date, with 60 seconds as the fallback when
neither parse succeeds), or, when absent, from X-RateLimit-Reset (epoch
seconds), or defaults to 60 seconds; it then adds a one second buffer and
sleeps.  Header parsing by parseInt and the Date constructor is embedded as an
already-classified header value. -/

/-- The Retry-After header as handleRateLimit classifies it: an integer
number of seconds when parseInt succeeds, an epoch-millisecond instant when
the Date parse succeeds, or malformed (both parses fail, leaving the 60
second default in place). -/
inductive RetryAfterValue where
  | seconds : Int → RetryAfterValue
  | httpDate : ℚ → RetryAfterValue
  | malformed : RetryAfterValue
  deriving DecidableEq, Repr

/-- The sleep handleRateLimit performs for a 429 response: the header-derived
duration in milliseconds plus the one second buffer. -/
def handleRateLimitWait (retryAfter : Option RetryAfterValue) (reset : Option Int)
    (now : ℚ) : ℚ :=
  let base : ℚ :=
    match retryAfter with
    | some (RetryAfterValue.seconds n) => (n : ℚ) * 1000
    | some (RetryAfterValue.httpDate t) => max 0 (t - now)
    | some RetryAfterValue.malformed => 60000
    | none =>
      match reset with
      | some r => max 0 ((r : ℚ) * 1000 - now)
      | none => 60000
  base + 1000

/-- The total wait the freee client inserts between a 429 response and the
next attempt when the wrapping retryWithBackoff decides to retry (as happens
with the default options, e.g. in getItems): the work function awaits
handleRateLimit before throwing, and retryWithBackoff then additionally sleeps
the computed backoff delay. -/
def waitBefore429Retry (retryAfter : Option RetryAfterValue) (reset : Option Int)
    (now : ℚ) (rand : Nat → ℚ) (attempt : Nat) : ℚ :=
  handleRateLimitWait retryAfter reset now + backoffDelay defaultRetryOptions rand attempt

/-- The property view of a JavaScript error value as isRetryableError reads
it: the optional code, status and message fields.  Reading any of these
properties off a plain number yields undefined, i.e. none. -/
structure JsError where
  code : Option String
  status : Option Int
  message : Option String
  deriving DecidableEq, Repr

/-- The retryable HTTP status list of isRetryableError. -/
def retryableStatuses : List Int := [408, 429, 500, 502, 503, 504]

/-- Whether the character list `pat` occurs at the start of `s`. -/
def leadsWith : List Char → List Char → Bool
  | [], _ => true
  | _ :: _, [] => false
  | a :: as, b :: bs => a = b && leadsWith as bs

/-- Whether the character list `pat` occurs anywhere inside `s`
(String.prototype.includes). -/
def hasSub (pat : List Char) : List Char → Bool
  | [] => leadsWith pat []
  | c :: rest => leadsWith pat (c :: rest) || hasSub pat rest

/-- isRetryableError from src/utils/retry.js: true for the named network
error codes; else, when a truthy status is present, true exactly for the
retryable statuses; else true when the message mentions a fetch, network or
timeout failure. -/
def isRetryableError (e : JsError) : Bool :=
  if e.code = some "ECONNREFUSED" ∨ e.code = some "ETIMEDOUT" ∨
      e.code = some "ECONNRESET" ∨ e.code = some "EPIPE" then
    true
  else
    match e.status with
    | some s =>
      if s ≠ 0 then retryableStatuses.contains s
      else match e.message with
        | some m => hasSub ("fetch failed".data) m.data || hasSub ("network".data) m.data ||
            hasSub ("timeout".data) m.data
        | none => false
    | none =>
      match e.message with
      | some m => hasSub ("fetch failed".data) m.data || hasSub ("network".data) m.data ||
          hasSub ("timeout".data) m.data
      | none => false

/-- The property lookup JavaScript performs when isRetryableError is applied
to a number instead of an error object: a number has no code, status or
message properties. -/
def numberAsError (_ : Int) : JsError :=
  { code := none, status := none, message := none }

/-- The shouldRetry option getJournals passes to retryWithBackoff:
error.status && isRetryableError(error.status) — note that it hands the
numeric status, not the error object, to isRetryableError. -/
def getJournalsShouldRetry (e : JsError) : Bool :=
  match e.status with
  | some s => if s ≠ 0 then isRetryableError (numberAsError s) else false
  | none => false

/-! ## Credential store (src/services/tokenStorage.js)

loadSecureTokens runs, inside one try block: getOrCreateKey, a read of the
encrypted token file, a JSON parse of the file content, a decryption, and a
JSON parse of the plaintext.  The catch block returns the empty map when the
error carries the ENOENT code, and logs and returns the empty map for every
other error.  File reads, the cipher and the JSON parser are embedded as
parameters; what matters to the claims is which failures reach the caller. -/

/-- The result of a file read: content found, absent (ENOENT), or another
input error. -/
inductive FileRead (α : Type) where
  | found : α → FileRead α
  | enoent : FileRead α
  | ioError : FileRead α
  deriving DecidableEq, Repr

/-- The failure that aborts the try block of loadSecureTokens. -/
inductive LoadFailure where
  | enoent : LoadFailure
  | ioErr : LoadFailure
  | parseErr : LoadFailure
  | decryptErr : LoadFailure
  deriving DecidableEq, Repr

/-- The try block of loadSecureTokens: obtain the key (generating one when
the key file is absent), read the token file, parse the encrypted JSON shape,
decrypt, and parse the plaintext token map.  `K` is the key type, `E` the
parsed encrypted shape, `M` the token map type; the parsers and the cipher
are parameters. -/
def loadSecureTokensE {K E M : Type} (keyFile : FileRead K) (genKey : K)
    (tokenFile : FileRead String) (parseEnc : String → Option E)
    (decrypt : K → E → Option String) (parseTokens : String → Option M) :
    Except LoadFailure M := do
  let key ← match keyFile with
    | FileRead.found k => Except.ok k
    | FileRead.enoent => Except.ok genKey
    | FileRead.ioError => Except.error LoadFailure.ioErr
  let content ← match tokenFile with
    | FileRead.found s => Except.ok s
    | FileRead.enoent => Except.error LoadFailure.enoent
    | FileRead.ioError => Except.error LoadFailure.ioErr
  let blob ← match parseEnc content with
    | some b => Except.ok b
    | none => Except.error LoadFailure.parseErr
  let plain ← match decrypt key blob with
    | some p => Except.ok p
    | none => Except.error LoadFailure.decryptErr
  match parseTokens plain with
  | some m => Except.ok m
  | none => Except.error LoadFailure.parseErr

/-- loadSecureTokens: the try block wrapped in the catch handler, which
returns the empty map for the ENOENT error and also, after logging, for every
other error. -/
def loadSecureTokens {K E M : Type} (keyFile : FileRead K) (genKey : K)
    (tokenFile : FileRead String) (parseEnc : String → Option E)
    (decrypt : K → E → Option String) (parseTokens : String → Option M)
    (emptyMap : M) : M :=
  match loadSecureTokensE keyFile genKey tokenFile parseEnc decrypt parseTokens with
  | Except.ok m => m
  | Except.error LoadFailure.enoent => emptyMap
  | Except.error _ => emptyMap

/-! ## Token lifecycle manager (src/services/tokenManager.js)

getAccessToken is embedded for one provider slot of the cachedTokens and
tokenExpiresAt module maps.  requestToken returns the static environment
access token when one is configured and otherwise performs the
refresh-token exchange (refreshFreeeToken); the exchanged token is a
parameter, and the result counts how many times requestToken and the actual
exchange ran. -/

/-- The environment variables getAccessToken consults for the provider. -/
structure Env where
  nodeEnv : Option String
  envAccessToken : Option String
  deriving DecidableEq, Repr

/-- The in-memory token cache for one provider: the cachedTokens entry and
the tokenExpiresAt entry (epoch milliseconds). -/
structure TMState where
  cachedToken : Option String
  expiresAt : Option ℚ
  deriving DecidableEq, Repr

/-- The observable outcome of one getAccessToken call: the token returned,
the updated in-memory cache, how many times requestToken ran, and how many
times an actual refresh-token exchange ran. -/
structure TMResult where
  token : String
  state : TMState
  requestCalls : Nat
  exchangeCalls : Nat
  deriving DecidableEq, Repr

/-- REFRESH_BUFFER_SECONDS converted to milliseconds. -/
def refreshBufferMs : ℚ := 300 * 1000

/-- requestToken for a provider: the static environment access token when
configured (no exchange), otherwise the refresh-token exchange, whose
resulting access token is the parameter `exchanged`; either way the expiry
handed back is 3600 seconds. -/
def requestToken (env : Env) (exchanged : String) : String × ℚ × Nat :=
  match env.envAccessToken with
  | some t => (t, 3600, 0)
  | none => (exchanged, 3600, 1)

/-- getAccessToken from src/services/tokenManager.js for one provider:
the development-mode environment fallback when no token is cached; then the
cached token when both cache entries exist and expiresAt minus the five
minute buffer is still in the future; otherwise requestToken, whose result is
cached with expiry now + 3600 seconds and returned. -/
def getAccessToken (env : Env) (st : TMState) (now : ℚ) (exchanged : String) : TMResult :=
  if env.nodeEnv = some "development" ∧ st.cachedToken = none ∧ env.envAccessToken.isSome then
    let t := env.envAccessToken.getD ""
    { token := t, state := { cachedToken := some t, expiresAt := some (now + 3600 * 1000) },
      requestCalls := 0, exchangeCalls := 0 }
  else
    match st.cachedToken, st.expiresAt with
    | some c, some ex =>
      if now < ex - refreshBufferMs then
        { token := c, state := st, requestCalls := 0, exchangeCalls := 0 }
      else
        let r := requestToken env exchanged
        { token := r.1,
          state := { cachedToken := some r.1, expiresAt := some (now + r.2.1 * 1000) },
          requestCalls := 1, exchangeCalls := r.2.2 }
    | _, _ =>
      let r := requestToken env exchanged
      { token := r.1,
        state := { cachedToken := some r.1, expiresAt := some (now + r.2.1 * 1000) },
        requestCalls := 1, exchangeCalls := r.2.2 }

/-! ## Audit log (src/services/auditLog.js)

generateAuditHash JSON-encodes the object holding exactly the five protected
fields, in the literal property order timestamp, event_type, endpoint,
user_id, action, and digests the resulting string with SHA-256.  The five
fields are embedded with their storage types (timestamp INTEGER, event_type
TEXT NOT NULL, the others nullable TEXT); the digest is the abstract
parameter `digest`, whose collision resistance becomes an injectivity
hypothesis in the tamper-evidence theorem. -/

/-- The five protected fields of an audit entry. -/
structure AuditFields where
  timestamp : Int
  event_type : String
  endpoint : Option String
  user_id : Option String
  action : Option String
  deriving DecidableEq, Repr

/-- The exact character stream JSON.stringify produces for the five-field
object generateAuditHash builds. -/
def auditContentChars (e : AuditFields) : List Char :=
  ("\x7b\"timestamp\":").data ++ intChars e.timestamp ++
  (",\"event_type\":").data ++ jstrChars e.event_type ++
  (",\"endpoint\":").data ++ optJsonChars e.endpoint ++
  (",\"user_id\":").data ++ optJsonChars e.user_id ++
  (",\"action\":").data ++ optJsonChars e.action ++ ("\x7d").data

/-- generateAuditHash with the SHA-256 hex digest abstracted as `digest`. -/
def generateAuditHash {β : Type} (digest : List Char → β) (e : AuditFields) : β :=
  digest (auditContentChars e)

/-- One stored audit_log row, reduced to the hash-protected fields and the
stored hash; rows are addressed by their position in the append-only list. -/
structure AuditRow (β : Type) where
  fields : AuditFields
  hash : β
  deriving DecidableEq, Repr

/-- logAuditEvent, reduced to the hash-protected fields: compute the hash of
the entry and append the row to the store. -/
def logAuditEvent {β : Type} (digest : List Char → β) (store : List (AuditRow β))
    (e : AuditFields) : List (AuditRow β) :=
  store ++ [{ fields := e, hash := generateAuditHash digest e }]

/-- verifyAuditLogIntegrity: fetch the row, recompute the hash from the
stored fields, and compare with the stored hash; false when the row is
absent. -/
def verifyAuditLogIntegrity {β : Type} [DecidableEq β] (digest : List Char → β)
    (store : List (AuditRow β)) (id : Nat) : Bool :=
  match store[id]? with
  | none => false
  | some row => decide (row.hash = generateAuditHash digest row.fields)

/-- Direct mutation of the protected fields of a stored row, leaving the
stored hash in place (the tampering scenario of the claim). -/
def tamperRow {β : Type} (store : List (AuditRow β)) (id : Nat) (f : AuditFields) :
    List (AuditRow β) :=
  match store[id]? with
  | some row => store.set id { fields := f, hash := row.hash }
  | none => store

/-! ## A decoder for the audit content string

The tamper-evidence claim needs that two distinct five-field entries always
produce distinct content strings.  We prove this by exhibiting a decoder that
recovers the five fields from the encoded character stream. -/

/-- Numeric value of a decimal digit character. -/
def digitVal? (c : Char) : Option Nat :=
  if c = '0' then some 0
  else if c = '1' then some 1
  else if c = '2' then some 2
  else if c = '3' then some 3
  else if c = '4' then some 4
  else if c = '5' then some 5
  else if c = '6' then some 6
  else if c = '7' then some 7
  else if c = '8' then some 8
  else if c = '9' then some 9
  else none

/-- Numeric value of a lowercase hexadecimal digit character. -/
def hexVal? (c : Char) : Option Nat :=
  if c = 'a' then some 10
  else if c = 'b' then some 11
  else if c = 'c' then some 12
  else if c = 'd' then some 13
  else if c = 'e' then some 14
  else if c = 'f' then some 15
  else digitVal? c

/-- Split a leading run of decimal digit characters off a character list,
returning their values and the remainder. -/
def parseDigits : List Char → List Nat × List Char
  | [] => ([], [])
  | c :: r =>
    match digitVal? c with
    | some d =>
      let p := parseDigits r
      (d :: p.1, p.2)
    | none => ([], c :: r)

/-- The number denoted by a most-significant-first digit list. -/
def valueOfDigits (ds : List Nat) : Nat :=
  ds.foldl (fun a d => 10 * a + d) 0

/-- Parse a decimal integer (optional leading minus sign) off the front of a
character list. -/
def parseInt? (l : List Char) : Option (Int × List Char) :=
  if l.head? = some '-' then
    let p := parseDigits l.tail
    if p.1.isEmpty then none else some (-(valueOfDigits p.1 : Int), p.2)
  else
    let p := parseDigits l
    if p.1.isEmpty then none else some ((valueOfDigits p.1 : Int), p.2)

/-- The scanner state of the JSON string-body decoder: ordinary characters,
just after a backslash, or inside a \u00XX escape (after u, u0, u00, or u00
plus the high hex digit). -/
inductive JMode where
  | norm : JMode
  | esc : JMode
  | u1 : JMode
  | u2 : JMode
  | u3 : JMode
  | u4 : Char → JMode
  deriving DecidableEq, Repr

/-- Decode a JSON string body (the part after the opening quote) up to its
closing quote, undoing the escaping of `escape`; returns the decoded body and
the remainder after the closing quote. -/
def jsBody : List Char → JMode → Option (List Char × List Char)
  | [], _ => none
  | c :: r, JMode.norm =>
    if c = '"' then some ([], r)
    else if c = '\\' then jsBody r JMode.esc
    else (jsBody r JMode.norm).map (fun p => (c :: p.1, p.2))
  | c :: r, JMode.esc =>
    if c = '"' then (jsBody r JMode.norm).map (fun p => ('"' :: p.1, p.2))
    else if c = '\\' then (jsBody r JMode.norm).map (fun p => ('\\' :: p.1, p.2))
    else if c = 'b' then (jsBody r JMode.norm).map (fun p => ('\x08' :: p.1, p.2))
    else if c = 't' then (jsBody r JMode.norm).map (fun p => ('\t' :: p.1, p.2))
    else if c = 'n' then (jsBody r JMode.norm).map (fun p => ('\n' :: p.1, p.2))
    else if c = 'f' then (jsBody r JMode.norm).map (fun p => ('\x0c' :: p.1, p.2))
    else if c = 'r' then (jsBody r JMode.norm).map (fun p => ('\r' :: p.1, p.2))
    else if c = 'u' then jsBody r JMode.u1
    else none
  | c :: r, JMode.u1 => if c = '0' then jsBody r JMode.u2 else none
  | c :: r, JMode.u2 => if c = '0' then jsBody r JMode.u3 else none
  | c :: r, JMode.u3 => if (hexVal? c).isSome then jsBody r (JMode.u4 c) else none
  | c :: r, JMode.u4 h =>
    if (hexVal? c).isSome then
      (jsBody r JMode.norm).map
        (fun p => (Char.ofNat (16 * (hexVal? h).getD 0 + (hexVal? c).getD 0) :: p.1, p.2))
    else none

/-- Decode a JSON string body starting in the ordinary state. -/
def parseJString (l : List Char) : Option (List Char × List Char) :=
  jsBody l JMode.norm

/-- Parse a whole JSON string literal (opening quote included). -/
def parseQuoted : List Char → Option (List Char × List Char)
  | '"' :: r => parseJString r
  | _ => none

/-- Parse a nullable JSON string field: a string literal or the word null. -/
def parseOptJson : List Char → Option (Option (List Char) × List Char)
  | '"' :: r => (parseJString r).map (fun p => (some p.1, p.2))
  | 'n' :: 'u' :: 'l' :: 'l' :: r => some (none, r)
  | _ => none

/-- Strip an expected literal character sequence off the front of a list. -/
def dropLit : List Char → List Char → Option (List Char)
  | [], l => some l
  | _ :: _, [] => none
  | c :: cs, x :: xs => if x = c then dropLit cs xs else none

/-- Decode the audit content string back into the five protected fields. -/
def decodeAuditContent (l : List Char) : Option AuditFields :=
  (dropLit ("\x7b\"timestamp\":").data l).bind fun r1 =>
  (parseInt? r1).bind fun p1 =>
  (dropLit ((",\"event_type\":").data) p1.2).bind fun r2 =>
  (parseQuoted r2).bind fun p2 =>
  (dropLit ((",\"endpoint\":").data) p2.2).bind fun r3 =>
  (parseOptJson r3).bind fun p3 =>
  (dropLit ((",\"user_id\":").data) p3.2).bind fun r4 =>
  (parseOptJson r4).bind fun p4 =>
  (dropLit ((",\"action\":").data) p4.2).bind fun r5 =>
  (parseOptJson r5).bind fun p5 =>
  some { timestamp := p1.1, event_type := String.mk p2.1,
         endpoint := p3.1.map String.mk, user_id := p4.1.map String.mk,
         action := p5.1.map String.mk }

/-- Reachability in any number of refill, acquire or tryAcquire steps. -/
def BucketReachable : BucketState → BucketState → Prop :=
  Relation.ReflTransGen BucketStep

/-! ## Theorems: digit and escape decoding -/

/-- Decimal digit characters decode back to their values. -/
theorem digitVal?_digitChar : ∀ d < 10, digitVal? (digitChar d) = some d := by decide

/-- Hexadecimal digit characters decode back to their values. -/
theorem hexVal?_hexDigit : ∀ d < 16, hexVal? (hexDigit d) = some d := by decide

/-- No digit character is a minus sign. -/
theorem digitChar_ne_dash (d : Nat) : digitChar d ≠ '-' := by
  unfold digitChar
  split <;> decide

/-- parseDigits consumes exactly a leading block of digit characters. -/
theorem parseDigits_map (ds : List Nat) (hds : ∀ d ∈ ds, d < 10) (rest : List Char)
    (hrest : ∀ c, rest.head? = some c → digitVal? c = none) :
    parseDigits (ds.map digitChar ++ rest) = (ds, rest) := by
  induction ds with
  | nil =>
    cases rest with
    | nil => rfl
    | cons c r => simp [parseDigits, hrest c rfl]
  | cons d ds ih =>
    have hd : digitVal? (digitChar d) = some d := digitVal?_digitChar d (hds d (by simp))
    simp [parseDigits, hd, ih (fun x hx => hds x (by simp [hx]))]

/-- Folding most-significant-first digits is Nat.ofDigits of the
least-significant-first list. -/
theorem valueOfDigits_reverse (l : List Nat) : valueOfDigits l.reverse = Nat.ofDigits 10 l := by
  induction l with
  | nil => rfl
  | cons d l ih =>
    have : valueOfDigits (l.reverse ++ [d]) = 10 * valueOfDigits l.reverse + d := by
      simp [valueOfDigits, List.foldl_append]
    simp only [List.reverse_cons, this, ih, Nat.ofDigits_cons]
    ring

/-- natChars is a nonempty digit-character rendering whose digits decode to
the number. -/
theorem natChars_spec (n : Nat) : ∃ ds : List Nat,
    natChars n = ds.map digitChar ∧ (∀ d ∈ ds, d < 10) ∧ ds ≠ [] ∧ valueOfDigits ds = n := by
  by_cases h : n = 0
  · exact ⟨[0], by subst h; decide, by decide, by decide, by subst h; decide⟩
  · refine ⟨(Nat.digits 10 n).reverse, by simp [natChars, h], ?_, ?_, ?_⟩
    · intro d hd
      exact Nat.digits_lt_base (by norm_num) (List.mem_reverse.mp hd)
    · simpa using Nat.digits_ne_nil_iff_ne_zero.mpr h
    · rw [valueOfDigits_reverse, Nat.ofDigits_digits]

/-- parseInt? undoes intChars in front of a remainder that does not begin
with a digit. -/
theorem parseInt?_intChars (n : Int) (rest : List Char)
    (hrest : ∀ c, rest.head? = some c → digitVal? c = none) :
    parseInt? (intChars n ++ rest) = some (n, rest) := by
  by_cases hn : n < 0
  · obtain ⟨ds, hmap, hlt, hne, hval⟩ := natChars_spec n.natAbs
    have hdig : parseDigits (natChars n.natAbs ++ rest) = (ds, rest) := by
      rw [hmap]; exact parseDigits_map ds hlt rest hrest
    have hne' : ds.isEmpty = false := by cases ds <;> simp_all
    simp only [intChars, if_pos hn, List.cons_append]
    unfold parseInt?
    simp only [List.head?_cons, List.tail_cons]
    rw [if_pos trivial, hdig]
    simp only [hne', Bool.false_eq_true, if_false, Option.some.injEq, Prod.mk.injEq]
    refine ⟨by rw [hval]; omega, trivial⟩
  · obtain ⟨ds, hmap, hlt, hne, hval⟩ := natChars_spec n.toNat
    have hdig : parseDigits (natChars n.toNat ++ rest) = (ds, rest) := by
      rw [hmap]; exact parseDigits_map ds hlt rest hrest
    have hne' : ds.isEmpty = false := by cases ds <;> simp_all
    have hhead : ¬ ((natChars n.toNat ++ rest).head? = some '-') := by
      rw [hmap]
      cases ds with
      | nil => exact absurd rfl hne
      | cons d ds =>
        simp only [List.map_cons, List.cons_append, List.head?_cons, Option.some.injEq]
        exact digitChar_ne_dash d
    simp only [intChars, if_neg hn]
    unfold parseInt?
    rw [if_neg hhead, hdig]
    simp only [hne', Bool.false_eq_true, if_false, Option.some.injEq, Prod.mk.injEq]
    refine ⟨by rw [hval]; omega, trivial⟩

/-- parseJString undoes `escape` up to the closing quote. -/
theorem parseJString_escape (s t : List Char) :
    parseJString (escape s ++ '"' :: t) = some (s, t) := by
  unfold parseJString
  induction s with
  | nil => simp [escape, jsBody]
  | cons c s ih =>
    rw [show escape (c :: s) = escChar c ++ escape s from rfl, List.append_assoc]
    by_cases h1 : c = '"'
    · subst h1; simp [escChar, jsBody, ih]
    · by_cases h2 : c = '\\'
      · subst h2; simp [escChar, jsBody, ih]
      · by_cases h3 : c = '\x08'
        · subst h3; simp [escChar, jsBody, ih]
        · by_cases h4 : c = '\t'
          · subst h4; simp [escChar, jsBody, ih]
          · by_cases h5 : c = '\n'
            · subst h5; simp [escChar, jsBody, ih]
            · by_cases h6 : c = '\x0c'
              · subst h6; simp [escChar, jsBody, ih]
              · by_cases h7 : c = '\r'
                · subst h7; simp [escChar, jsBody, ih]
                · by_cases h8 : c.toNat < 32
                  · have hhi : hexVal? (hexDigit (c.toNat / 16)) = some (c.toNat / 16) :=
                      hexVal?_hexDigit _ (by omega)
                    have hlo : hexVal? (hexDigit (c.toNat % 16)) = some (c.toNat % 16) :=
                      hexVal?_hexDigit _ (Nat.mod_lt _ (by norm_num))
                    have hc : Char.ofNat (16 * (c.toNat / 16) + c.toNat % 16) = c := by
                      rw [Nat.div_add_mod, Char.ofNat_toNat]
                    simp only [escChar, if_neg h1, if_neg h2, if_neg h3, if_neg h4, if_neg h5,
                      if_neg h6, if_neg h7, if_pos h8, List.cons_append, List.nil_append]
                    simp [jsBody, hhi, hlo, hc, ih]
                  · simp only [escChar, if_neg h1, if_neg h2, if_neg h3, if_neg h4, if_neg h5,
                      if_neg h6, if_neg h7, if_neg h8, List.cons_append, List.nil_append]
                    simp [jsBody, h1, h2, ih]

/-- parseQuoted undoes jstrChars in front of any remainder. -/
theorem parseQuoted_jstr (s : String) (r : List Char) :
    parseQuoted (jstrChars s ++ r) = some (s.data, r) := by
  show parseQuoted ('"' :: (escape s.data ++ ['"']) ++ r) = some (s.data, r)
  rw [show ('"' :: (escape s.data ++ ['"'])) ++ r = '"' :: (escape s.data ++ '"' :: r) by simp]
  show parseJString (escape s.data ++ '"' :: r) = some (s.data, r)
  exact parseJString_escape s.data r

/-- parseOptJson undoes optJsonChars in front of any remainder. -/
theorem parseOptJson_opt (o : Option String) (r : List Char) :
    parseOptJson (optJsonChars o ++ r) = some (o.map String.data, r) := by
  cases o with
  | none => rfl
  | some s =>
    show parseOptJson ('"' :: (escape s.data ++ ['"']) ++ r) = some (some s.data, r)
    rw [show ('"' :: (escape s.data ++ ['"'])) ++ r = '"' :: (escape s.data ++ '"' :: r) by simp]
    show (parseJString (escape s.data ++ '"' :: r)).map (fun p => (some p.1, p.2)) =
      some (some s.data, r)
    rw [parseJString_escape]
    rfl

/-- dropLit strips an exact literal. -/
theorem dropLit_append (lit r : List Char) : dropLit lit (lit ++ r) = some r := by
  induction lit with
  | nil => rfl
  | cons c cs ih => simp [dropLit, ih]

/-- The continuation that follows the timestamp digits in the audit content
string starts with a comma, not a digit. -/
theorem headOf_eventType (X : List Char) (c : Char)
    (hc : ((",\"event_type\":").data ++ X).head? = some c) : digitVal? c = none := by
  rw [show (",\"event_type\":").data = ',' :: ("\"event_type\":").data from rfl,
    List.cons_append, List.head?_cons] at hc
  have : c = ',' := by simpa using hc.symm
  subst this
  decide

/-- The decoder recovers the five protected fields from the audit content
string. -/
theorem decodeAuditContent_encode (e : AuditFields) :
    decodeAuditContent (auditContentChars e) = some e := by
  obtain ⟨ts, et, ep, uid, act⟩ := e
  unfold decodeAuditContent auditContentChars
  simp only [List.append_assoc]
  rw [dropLit_append]
  simp only [Option.some_bind]
  rw [parseInt?_intChars ts _ (headOf_eventType _)]
  simp only [Option.some_bind]
  rw [dropLit_append]
  simp only [Option.some_bind]
  rw [parseQuoted_jstr]
  simp only [Option.some_bind]
  rw [dropLit_append]
  simp only [Option.some_bind]
  rw [parseOptJson_opt]
  simp only [Option.some_bind]
  rw [dropLit_append]
  simp only [Option.some_bind]
  rw [parseOptJson_opt]
  simp only [Option.some_bind]
  rw [dropLit_append]
  simp only [Option.some_bind]
  rw [parseOptJson_opt]
  simp only [Option.some_bind]
  have hmk : ∀ s : String, String.mk s.data = s := fun s => rfl
  have hopt : ∀ o : Option String, (o.map String.data).map String.mk = o := by
    intro o; cases o <;> simp [hmk]
  simp [hmk, hopt]

/-- Two distinct five-field audit entries always have distinct content
strings. -/
theorem auditContentChars_injective : Function.Injective auditContentChars := by
  intro a b h
  have ha := decodeAuditContent_encode a
  have hb := decodeAuditContent_encode b
  rw [h, hb] at ha
  exact (Option.some.inj ha).symm

/-! ## Claim C1: exhaustion behaviour of retryWithBackoff -/

/-- Claim C1: with maxRetries = 3 (the default options), a unit of work that
fails on every invocation under a shouldRetry that always approves is invoked
exactly 4 times (one initial attempt plus three retries), and
retryWithBackoff then raises the wrapping error whose attempts field is 3 and
whose cause is the last underlying error. -/
theorem retryWithBackoff_exhaustion {ε α : Type} (errs : Nat → ε) (rand : Nat → ℚ) :
    (retryWithBackoff (fun i => (Except.error (errs i) : Except ε α)) (fun _ _ => true)
        defaultRetryOptions rand).1 = RetryOutcome.exhausted 3 (errs 3) ∧
    (retryWithBackoff (fun i => (Except.error (errs i) : Except ε α)) (fun _ _ => true)
        defaultRetryOptions rand).2.1 = 4 := by
  unfold retryWithBackoff
  rw [retryGo, retryGo, retryGo, retryGo]
  simp [defaultRetryOptions]

/-! ## Claim C2: the acquire wait loop -/

/-- On a schedule of n empty-bucket observations followed by a full one,
acquire nests n self-invocations, sleeping 1000 ms each time. -/
theorem acquireGo_replicate (n : Nat) :
    acquireGo 5 1 (List.replicate n ((0 : ℚ), (0 : ℚ), (0 : ℚ)) ++ [(5, 0, 0)]) =
      some (n, List.replicate n 1000) := by
  induction n with
  | zero => norm_num [acquireGo, refill]
  | succ n ih =>
    simp only [List.replicate_succ, List.cons_append, acquireGo, List.append_eq]
    rw [ih]
    norm_num [refill, List.replicate_succ]

/-- Claim C2, counterexample: the number of nested self-invocations of
acquire is not bounded across schedules — under sustained contention the
recursion retries by calling itself, so the nesting depth equals the number
of consecutive waits and grows without bound, contrary to the claimed
iterative (bounded call-stack) retry. -/
theorem acquire_depth_unbounded :
    ¬ ∃ B : Nat, ∀ (obs : List (ℚ × ℚ × ℚ)) (d : Nat) (ws : List ℚ),
      acquireGo 5 1 obs = some (d, ws) → d ≤ B := by
  rintro ⟨B, hB⟩
  have := hB _ _ _ (acquireGo_replicate (B + 1))
  omega

/-- Claim C2, amended: when the refilled token count is below 1, acquire
computes a wait of (1 - tokens) / refillRate * 1000 milliseconds, suspends
for that duration, and then retries the availability check by a recursive
self-invocation, so the number of nested self-invocations equals the number
of consecutive waits (and is unbounded under sustained contention). -/
theorem acquire_recursive_wait_formula (cap rate : ℚ) (lows : List (ℚ × ℚ × ℚ))
    (lastObs : ℚ × ℚ × ℚ)
    (hlow : ∀ o ∈ lows, (refill ⟨cap, rate, o.1, o.2.1⟩ o.2.2).tokens < 1)
    (hlast : 1 ≤ (refill ⟨cap, rate, lastObs.1, lastObs.2.1⟩ lastObs.2.2).tokens) :
    acquireGo cap rate (lows ++ [lastObs]) =
      some (lows.length,
        lows.map (fun o => (1 - (refill ⟨cap, rate, o.1, o.2.1⟩ o.2.2).tokens) / rate * 1000)) := by
  induction lows with
  | nil => simp [acquireGo, hlast]
  | cons o lows ih =>
    have h1 : ¬ (1 ≤ (refill ⟨cap, rate, o.1, o.2.1⟩ o.2.2).tokens) := by
      have := hlow o (by simp)
      linarith
    rw [List.cons_append, acquireGo]
    simp only [if_neg h1, ih (fun x hx => hlow x (by simp [hx]))]
    simp

/-- Witness for the amended claim C2 at a concrete schedule: one empty
observation then a full bucket gives exactly one nested self-invocation with
a 1000 ms wait. -/
theorem acquire_recursive_wait_formula_witness :
    acquireGo 5 1 [((0 : ℚ), (0 : ℚ), (0 : ℚ)), (5, 0, 0)] = some (1, [1000]) := by
  have h := acquire_recursive_wait_formula 5 1 [((0 : ℚ), (0 : ℚ), (0 : ℚ))] (5, 0, 0)
    (by intro o ho; simp at ho; subst ho; norm_num [refill])
    (by norm_num [refill])
  simpa [refill] using h

/-! ## Claim C9: bucket invariant and refill monotonicity -/

/-- One step preserves the bucket invariant. -/
theorem bucketStep_inv {s s' : BucketState} (h : BucketStep s s') (hinv : BucketInv s) :
    BucketInv s' := by
  obtain ⟨h0, hcap, hrate⟩ := hinv
  have hmax : (0 : ℚ) ≤ s.maxTokens := le_trans h0 hcap
  cases h with
  | refillStep now hnow =>
    have hadd : (0 : ℚ) ≤ (now - s.lastRefill) / 1000 * s.refillRate :=
      mul_nonneg (div_nonneg (by linarith) (by norm_num)) hrate
    exact ⟨le_min hmax (by linarith), min_le_left _ _, hrate⟩
  | tryAcquireStep now hnow =>
    have hadd : (0 : ℚ) ≤ (now - s.lastRefill) / 1000 * s.refillRate :=
      mul_nonneg (div_nonneg (by linarith) (by norm_num)) hrate
    have hminle := min_le_left s.maxTokens (s.tokens + (now - s.lastRefill) / 1000 * s.refillRate)
    unfold BucketInv tryAcquire refill
    dsimp only
    split
    · rename_i hge
      exact ⟨by linarith, by linarith, hrate⟩
    · exact ⟨le_min hmax (by linarith), min_le_left _ _, hrate⟩

/-- Claim C9: along every sequence of refill, acquire and tryAcquire steps
the invariant 0 ≤ tokens ≤ capacity is preserved, and for a given bucket the
refilled token count is monotone in the elapsed wall-clock time. -/
theorem bucket_invariant_and_monotone (s s' : BucketState) (hinv : BucketInv s)
    (hreach : BucketReachable s s') :
    BucketInv s' ∧
    ∀ n1 n2 : ℚ, s.lastRefill ≤ n1 → n1 ≤ n2 →
      (refill s n1).tokens ≤ (refill s n2).tokens := by
  constructor
  · induction hreach with
    | refl => exact hinv
    | tail _ hstep ih => exact bucketStep_inv hstep ih
  · intro n1 n2 h1 h12
    unfold refill
    dsimp only
    have hrate := hinv.2.2
    have : (n1 - s.lastRefill) / 1000 * s.refillRate ≤
        (n2 - s.lastRefill) / 1000 * s.refillRate := by
      apply mul_le_mul_of_nonneg_right _ hrate
      linarith
    exact min_le_min (le_refl _) (by linarith)

/-- Witness for claim C9 at a concrete bucket: the invariant holds after one
refill step from the freshly constructed state. -/
theorem bucket_invariant_and_monotone_witness :
    BucketInv (refill ⟨10, 1, 10, 0⟩ 500) ∧
    ∀ n1 n2 : ℚ, (⟨10, 1, 10, 0⟩ : BucketState).lastRefill ≤ n1 → n1 ≤ n2 →
      (refill ⟨10, 1, 10, 0⟩ n1).tokens ≤ (refill ⟨10, 1, 10, 0⟩ n2).tokens :=
  bucket_invariant_and_monotone ⟨10, 1, 10, 0⟩ (refill ⟨10, 1, 10, 0⟩ 500)
    ⟨by norm_num, by norm_num, by norm_num⟩
    (Relation.ReflTransGen.single (BucketStep.refillStep ⟨10, 1, 10, 0⟩ 500 (by norm_num)))

/-! ## Claim C4: the wait inserted after a 429 response -/

/-- Claim C4, counterexample: with Retry-After: 2 at attempt 0 (no jitter
draw), the inserted wait is 3500 ms — the header wait of 3000 ms (2 s plus
the 1 s buffer) followed by the 500 ms backoff sleep — and not the claimed
maximum of the two, which is 3000 ms. -/
theorem waitBefore429Retry_counterexample :
    waitBefore429Retry (some (RetryAfterValue.seconds 2)) none 0 (fun _ => 0) 0 = 3500 ∧
    max (handleRateLimitWait (some (RetryAfterValue.seconds 2)) none 0)
      (backoffDelay defaultRetryOptions (fun _ => 0) 0) = 3000 ∧
    (3500 : ℚ) ≠ 3000 := by
  refine ⟨?_, ?_, by norm_num⟩ <;>
    norm_num [waitBefore429Retry, handleRateLimitWait, backoffDelay, defaultRetryOptions]

/-- Claim C4, amended: on a 429 the client first sleeps the header-derived
duration plus the one second buffer inside handleRateLimit and then
additionally sleeps the computed backoff delay, so the total inserted wait is
the sum of the two, which is at least (not equal to) their maximum; moreover
the shouldRetry option getJournals itself passes misapplies
isRetryableError to the numeric status, so getJournals never retries at
all. -/
theorem waitBefore429Retry_sum (ra : Option RetryAfterValue) (reset : Option Int) (now : ℚ)
    (rand : Nat → ℚ) (attempt : Nat)
    (ha : 0 ≤ handleRateLimitWait ra reset now)
    (hb : 0 ≤ backoffDelay defaultRetryOptions rand attempt) :
    waitBefore429Retry ra reset now rand attempt =
      handleRateLimitWait ra reset now + backoffDelay defaultRetryOptions rand attempt ∧
    max (handleRateLimitWait ra reset now) (backoffDelay defaultRetryOptions rand attempt) ≤
      waitBefore429Retry ra reset now rand attempt ∧
    ∀ e : JsError, getJournalsShouldRetry e = false := by
  refine ⟨rfl, ?_, ?_⟩
  · unfold waitBefore429Retry
    exact max_le (by linarith) (by linarith)
  · intro e
    unfold getJournalsShouldRetry
    cases hstatus : e.status with
    | none => rfl
    | some s =>
      simp only
      split
      · exact (by decide :
          isRetryableError { code := none, status := none, message := none } = false)
      · rfl

/-- Witness for the amended claim C4 at a concrete 429 response and a
concrete 429 error object. -/
theorem waitBefore429Retry_sum_witness :
    (waitBefore429Retry (some (RetryAfterValue.seconds 3)) none 100 (fun _ => 1 / 2) 1 =
      handleRateLimitWait (some (RetryAfterValue.seconds 3)) none 100 +
        backoffDelay defaultRetryOptions (fun _ => 1 / 2) 1) ∧
    (max (handleRateLimitWait (some (RetryAfterValue.seconds 3)) none 100)
        (backoffDelay defaultRetryOptions (fun _ => 1 / 2) 1) ≤
      waitBefore429Retry (some (RetryAfterValue.seconds 3)) none 100 (fun _ => 1 / 2) 1) ∧
    getJournalsShouldRetry { code := none, status := some 429, message := none } = false :=
  ⟨(waitBefore429Retry_sum (some (RetryAfterValue.seconds 3)) none 100 (fun _ => 1 / 2) 1
      (by norm_num [handleRateLimitWait]) (by norm_num [backoffDelay, defaultRetryOptions])).1,
   (waitBefore429Retry_sum (some (RetryAfterValue.seconds 3)) none 100 (fun _ => 1 / 2) 1
      (by norm_num [handleRateLimitWait]) (by norm_num [backoffDelay, defaultRetryOptions])).2.1,
   (waitBefore429Retry_sum (some (RetryAfterValue.seconds 3)) none 100 (fun _ => 1 / 2) 1
      (by norm_num [handleRateLimitWait]) (by norm_num [backoffDelay, defaultRetryOptions])).2.2
     { code := none, status := some 429, message := none }⟩

/-! ## Claim C3: failure behaviour of the credential-store load -/

/-- Claim C3, counterexample: with the credential file present but its
content unparseable, the try block fails with a parse error — not with
ENOENT — and loadSecureTokens nevertheless returns the empty map instead of
raising a DecryptionError. -/
theorem loadSecureTokens_corrupt_counterexample :
    loadSecureTokens (FileRead.found ()) () (FileRead.found "corrupt")
        (fun _ => (none : Option Unit)) (fun _ _ => none)
        (fun _ => (none : Option (List (String × String)))) [] = [] ∧
    loadSecureTokensE (FileRead.found ()) () (FileRead.found "corrupt")
        (fun _ => (none : Option Unit)) (fun _ _ => none)
        (fun _ => (none : Option (List (String × String)))) =
      Except.error LoadFailure.parseErr := by
  exact ⟨rfl, rfl⟩

/-- Claim C3, amended: loadSecureTokens returns the empty map when the
credential file is absent, and it also returns the empty map — after logging
— for a present-but-corrupt key or blob (read error, unparseable JSON or
failed decryption); no failure is ever surfaced to the caller. -/
theorem loadSecureTokens_never_fails {K E M : Type} (keyFile : FileRead K) (genKey : K)
    (tokenFile : FileRead String) (parseEnc : String → Option E)
    (decrypt : K → E → Option String) (parseTokens : String → Option M) (emptyMap : M) :
    (tokenFile = FileRead.enoent →
      loadSecureTokens keyFile genKey tokenFile parseEnc decrypt parseTokens emptyMap =
        emptyMap) ∧
    ∀ f : LoadFailure,
      loadSecureTokensE keyFile genKey tokenFile parseEnc decrypt parseTokens =
          Except.error f →
        loadSecureTokens keyFile genKey tokenFile parseEnc decrypt parseTokens emptyMap =
          emptyMap := by
  constructor
  · intro h
    subst h
    unfold loadSecureTokens loadSecureTokensE
    cases keyFile <;> rfl
  · intro f hf
    unfold loadSecureTokens
    rw [hf]
    cases f <;> rfl

/-- Witness for the amended claim C3: an absent credential file and a corrupt
one both yield the empty map. -/
theorem loadSecureTokens_never_fails_witness :
    loadSecureTokens (FileRead.found ()) () FileRead.enoent
        (fun _ => (none : Option Unit)) (fun _ _ => none)
        (fun _ => (none : Option (List (String × String)))) [] = [] ∧
    loadSecureTokens (FileRead.found ()) () (FileRead.found "junk")
        (fun _ => (none : Option Unit)) (fun _ _ => none)
        (fun _ => (none : Option (List (String × String)))) [] = [] :=
  ⟨(loadSecureTokens_never_fails (FileRead.found ()) () FileRead.enoent
      (fun _ => (none : Option Unit)) (fun _ _ => none)
      (fun _ => (none : Option (List (String × String)))) []).1 rfl,
   (loadSecureTokens_never_fails (FileRead.found ()) () (FileRead.found "junk")
      (fun _ => (none : Option Unit)) (fun _ _ => none)
      (fun _ => (none : Option (List (String × String)))) []).2
     LoadFailure.parseErr rfl⟩

/-! ## Claim C5: the five minute refresh buffer of getAccessToken -/

/-- Claim C5: with an in-memory cached token whose expiry is more than five
minutes away, getAccessToken returns the cached token unchanged with no
requestToken call and no refresh exchange; with the expiry inside the five
minute buffer, it does not return the cached token: it invokes requestToken
— which performs the refresh-token exchange whenever no static environment
access token is configured — and returns that result instead. -/
theorem getAccessToken_refresh_buffer (env : Env) (st : TMState) (now ex : ℚ)
    (c exchanged : String) (hc : st.cachedToken = some c) (he : st.expiresAt = some ex) :
    (now < ex - refreshBufferMs →
      getAccessToken env st now exchanged =
        { token := c, state := st, requestCalls := 0, exchangeCalls := 0 }) ∧
    (ex - refreshBufferMs ≤ now →
      (getAccessToken env st now exchanged).requestCalls = 1 ∧
      (getAccessToken env st now exchanged).token = (requestToken env exchanged).1 ∧
      (env.envAccessToken = none →
        (getAccessToken env st now exchanged).exchangeCalls = 1 ∧
        (getAccessToken env st now exchanged).token = exchanged)) := by
  have hdev : ¬ (env.nodeEnv = some "development" ∧ st.cachedToken = none ∧
      env.envAccessToken.isSome) := by
    rintro ⟨-, h2, -⟩
    rw [hc] at h2
    cases h2
  constructor
  · intro hfresh
    unfold getAccessToken
    rw [if_neg hdev, hc, he]
    dsimp only
    rw [if_pos hfresh]
  · intro hstale
    have hnot : ¬ (now < ex - refreshBufferMs) := by linarith
    unfold getAccessToken
    rw [if_neg hdev, hc, he]
    dsimp only
    rw [if_neg hnot]
    refine ⟨rfl, rfl, ?_⟩
    intro henv
    unfold requestToken
    rw [henv]
    exact ⟨rfl, rfl⟩

/-- Witness for claim C5: a token expiring in 10 minutes is returned from the
cache; a token expiring in 4 minutes is replaced through requestToken, and
with no environment token configured the refresh exchange runs. -/
theorem getAccessToken_refresh_buffer_witness :
    (getAccessToken ⟨none, none⟩ ⟨some "tok", some 600000⟩ 0 "fresh" =
      { token := "tok", state := ⟨some "tok", some 600000⟩,
        requestCalls := 0, exchangeCalls := 0 }) ∧
    (getAccessToken ⟨none, none⟩ ⟨some "tok", some 240000⟩ 0 "fresh").requestCalls = 1 ∧
    (getAccessToken ⟨none, none⟩ ⟨some "tok", some 240000⟩ 0 "fresh").exchangeCalls = 1 ∧
    (getAccessToken ⟨none, none⟩ ⟨some "tok", some 240000⟩ 0 "fresh").token = "fresh" :=
  ⟨(getAccessToken_refresh_buffer ⟨none, none⟩ ⟨some "tok", some 600000⟩ 0 600000 "tok" "fresh"
      rfl rfl).1 (by norm_num [refreshBufferMs]),
   ((getAccessToken_refresh_buffer ⟨none, none⟩ ⟨some "tok", some 240000⟩ 0 240000 "tok" "fresh"
      rfl rfl).2 (by norm_num [refreshBufferMs])).1,
   (((getAccessToken_refresh_buffer ⟨none, none⟩ ⟨some "tok", some 240000⟩ 0 240000 "tok" "fresh"
      rfl rfl).2 (by norm_num [refreshBufferMs])).2.2 rfl).1,
   (((getAccessToken_refresh_buffer ⟨none, none⟩ ⟨some "tok", some 240000⟩ 0 240000 "tok" "fresh"
      rfl rfl).2 (by norm_num [refreshBufferMs])).2.2 rfl).2⟩

/-! ## Claim C6: cache TTL behaviour -/

/-- Looking up the key just upserted yields the new row. -/
theorem lookupRow_upsert {κ π : Type} [DecidableEq κ] (store : List (κ × CacheRow π)) (k : κ)
    (row : CacheRow π) : lookupRow (upsertRow store k row) k = some row := by
  induction store with
  | nil => simp [upsertRow, lookupRow]
  | cons kv s ih =>
    by_cases h : kv.1 = k
    · simp [upsertRow, lookupRow, h]
    · by_cases h2 : s.any (fun kv => kv.1 = k)
      · have hs : upsertRow s k row =
            s.map (fun kv => if kv.1 = k then (k, row) else kv) := by
          simp [upsertRow, h2]
        have ih2 : lookupRow (s.map (fun kv => if kv.1 = k then (k, row) else kv)) k =
            some row := by
          rw [← hs]; exact ih
        simp [upsertRow, List.any_cons, h, h2, lookupRow, ih2]
      · simp [upsertRow, List.any_cons, h, h2, lookupRow]

/-- Claim C6: saving an entry with a positive ttl and reading it back at the
same instant is a hit returning the saved payload (access statistics record a
hit), while reading it back once ttl or more has elapsed is a miss returning
none (and records a miss), because getFromCache only returns a row whose
expires_at is strictly greater than the current time. -/
theorem cache_set_get_ttl {κ π : Type} [DecidableEq κ] (digest : List Char → κ)
    (store : List (κ × CacheRow π)) (e : String) (p : List (String × JVal)) (v : π)
    (ttl now : ℚ) (httl : 0 < ttl) :
    ((getFromCache digest (saveToCache digest store e p v ttl now) e p now).1 =
        some { data := v, cached_at := now, expires_at := now + ttl } ∧
      (getFromCache digest (saveToCache digest store e p v ttl now) e p now).2.2 = true) ∧
    ∀ d : ℚ, ttl ≤ d →
      (getFromCache digest (saveToCache digest store e p v ttl now) e p (now + d)).1 = none ∧
      (getFromCache digest (saveToCache digest store e p v ttl now) e p (now + d)).2.2 =
        false := by
  have hlook := lookupRow_upsert store (generateCacheKey digest e p)
    ({ endpoint := e, data := v, created_at := now, expires_at := now + ttl,
       access_count := 0, last_accessed := now } : CacheRow π)
  constructor
  · unfold getFromCache saveToCache
    dsimp only
    rw [hlook]
    dsimp only
    rw [if_pos (by linarith : now < now + ttl)]
    exact ⟨rfl, rfl⟩
  · intro d hd
    unfold getFromCache saveToCache
    dsimp only
    rw [hlook]
    dsimp only
    rw [if_neg (by linarith : ¬ (now + d < now + ttl))]
    exact ⟨rfl, rfl⟩

/-- Witness for claim C6 at a concrete endpoint, parameter map, payload and
ttl. -/
theorem cache_set_get_ttl_witness :
    ((getFromCache (fun l => l) (saveToCache (fun l => l) [] "/freee/partners"
          [("company_id", JVal.jnum 1)] "payload" 300000 17) "/freee/partners"
          [("company_id", JVal.jnum 1)] 17).1 =
        some { data := "payload", cached_at := 17, expires_at := 17 + 300000 } ∧
      (getFromCache (fun l => l) (saveToCache (fun l => l) [] "/freee/partners"
          [("company_id", JVal.jnum 1)] "payload" 300000 17) "/freee/partners"
          [("company_id", JVal.jnum 1)] 17).2.2 = true) ∧
    ((getFromCache (fun l => l) (saveToCache (fun l => l) [] "/freee/partners"
          [("company_id", JVal.jnum 1)] "payload" 300000 17) "/freee/partners"
          [("company_id", JVal.jnum 1)] (17 + 300000)).1 = none ∧
      (getFromCache (fun l => l) (saveToCache (fun l => l) [] "/freee/partners"
          [("company_id", JVal.jnum 1)] "payload" 300000 17) "/freee/partners"
          [("company_id", JVal.jnum 1)] (17 + 300000)).2.2 = false) :=
  ⟨(cache_set_get_ttl (fun l => l) [] "/freee/partners" [("company_id", JVal.jnum 1)]
      "payload" 300000 17 (by norm_num)).1,
   (cache_set_get_ttl (fun l => l) [] "/freee/partners" [("company_id", JVal.jnum 1)]
      "payload" 300000 17 (by norm_num)).2 300000 (by norm_num)⟩

/-! ## Claim C7: order independence of the cache key -/

/-- In an association list with distinct keys, lookup is invariant under
permutation. -/
theorem lookup_eq_of_perm {β : Type} (k : String) :
    ∀ {l1 l2 : List (String × β)}, l1.Perm l2 → (l1.map Prod.fst).Nodup →
      l1.lookup k = l2.lookup k := by
  intro l1 l2 hp
  induction hp with
  | nil => intro _; rfl
  | cons x h ih =>
    intro hnd
    obtain ⟨a, b⟩ := x
    rw [List.lookup_cons, List.lookup_cons]
    cases hk : k == a with
    | true => rfl
    | false =>
      simp only [List.map_cons] at hnd
      exact ih hnd.of_cons
  | swap x y t =>
    intro hnd
    obtain ⟨a, b⟩ := x
    obtain ⟨a2, b2⟩ := y
    simp only [List.map_cons, List.nodup_cons, List.mem_cons] at hnd
    rw [List.lookup_cons, List.lookup_cons, List.lookup_cons, List.lookup_cons]
    cases hk1 : k == a2 with
    | true =>
      cases hk2 : k == a with
      | true =>
        exfalso
        have e1 : k = a2 := by simpa using hk1
        have e2 : k = a := by simpa using hk2
        exact hnd.1 (Or.inl (by rw [← e1, e2]))
      | false => rfl
    | false =>
      cases hk2 : k == a with
      | true => rfl
      | false => rfl
  | trans h1 h2 ih1 ih2 =>
    intro hnd
    rw [ih1 hnd, ih2 ((h1.map Prod.fst).nodup_iff.mp hnd)]

/-- The sorted key list of generateCacheKey depends only on the key
multiset. -/
theorem sortedKeys_eq_of_perm (p1 p2 : List (String × JVal)) (hp : p1.Perm p2) :
    List.insertionSort (fun a b : String => a ≤ b) (p1.map Prod.fst) =
      List.insertionSort (fun a b : String => a ≤ b) (p2.map Prod.fst) := by
  refine List.eq_of_perm_of_sorted ?_ (List.sorted_insertionSort _ _)
    (List.sorted_insertionSort _ _)
  exact (List.perm_insertionSort _ _).trans
    ((hp.map Prod.fst).trans (List.perm_insertionSort _ _).symm)

/-- The cache key ignores the insertion order of the parameter object. -/
theorem generateCacheKey_perm {κ : Type} (digest : List Char → κ) (e : String)
    {p1 p2 : List (String × JVal)} (hp : p1.Perm p2) (hnd : (p1.map Prod.fst).Nodup) :
    generateCacheKey digest e p1 = generateCacheKey digest e p2 := by
  unfold generateCacheKey cacheKeyInput filteredSortedParams
  dsimp only
  rw [sortedKeys_eq_of_perm p1 p2 hp]
  have hfun : ∀ x ∈ List.insertionSort (fun a b : String => a ≤ b) (p2.map Prod.fst),
      (match p1.lookup x with
        | some v => if v ≠ JVal.jundef ∧ v ≠ JVal.jnull then some (x, v) else none
        | none => none) =
      (match p2.lookup x with
        | some v => if v ≠ JVal.jundef ∧ v ≠ JVal.jnull then some (x, v) else none
        | none => none) := by
    intro x _
    rw [lookup_eq_of_perm x hp hnd]
  rw [List.filterMap_congr hfun]

/-- A successful lookup means the key is present. -/
theorem any_of_lookupRow {κ π : Type} [DecidableEq κ] :
    ∀ (s : List (κ × CacheRow π)) (k : κ) (r : CacheRow π), lookupRow s k = some r →
      s.any (fun kv => kv.1 = k) = true := by
  intro s k r
  induction s with
  | nil => intro h; cases h
  | cons kv t ih =>
    intro h
    rw [lookupRow] at h
    by_cases hh : kv.1 = k
    · simp [List.any_cons, hh]
    · rw [if_neg hh] at h
      simp [List.any_cons, ih h]

/-- Upserting a present key replaces in place, leaving the row count
unchanged. -/
theorem upsertRow_length_of_any {κ π : Type} [DecidableEq κ] (s : List (κ × CacheRow π))
    (k : κ) (row : CacheRow π) (h : s.any (fun kv => kv.1 = k) = true) :
    (upsertRow s k row).length = s.length := by
  simp [upsertRow, h]

/-- Claim C7: two parameter maps with the same bindings in different
insertion orders produce the same cache key, and consequently a second
saveToCache with the reordered parameters overwrites the first row — the
store keeps its size and the shared key now holds the second payload — rather
than creating a new entry. -/
theorem cacheKey_order_independent {κ π : Type} [DecidableEq κ] (digest : List Char → κ)
    (e : String) (p1 p2 : List (String × JVal)) (hp : p1.Perm p2)
    (hnd : (p1.map Prod.fst).Nodup) (store : List (κ × CacheRow π)) (v1 v2 : π)
    (ttl1 now1 ttl2 now2 : ℚ) :
    generateCacheKey digest e p1 = generateCacheKey digest e p2 ∧
    (saveToCache digest (saveToCache digest store e p1 v1 ttl1 now1) e p2 v2 ttl2 now2).length =
      (saveToCache digest store e p1 v1 ttl1 now1).length ∧
    lookupRow (saveToCache digest (saveToCache digest store e p1 v1 ttl1 now1) e p2 v2 ttl2 now2)
        (generateCacheKey digest e p1) =
      some { endpoint := e, data := v2, created_at := now2, expires_at := now2 + ttl2,
             access_count := 0, last_accessed := now2 } := by
  have hkey : generateCacheKey digest e p1 = generateCacheKey digest e p2 :=
    generateCacheKey_perm digest e hp hnd
  have hlook1 := lookupRow_upsert store (generateCacheKey digest e p1)
    ({ endpoint := e, data := v1, created_at := now1, expires_at := now1 + ttl1,
       access_count := 0, last_accessed := now1 } : CacheRow π)
  refine ⟨hkey, ?_, ?_⟩
  · unfold saveToCache
    rw [← hkey]
    exact upsertRow_length_of_any _ _ _ (any_of_lookupRow _ _ _ hlook1)
  · unfold saveToCache
    rw [← hkey]
    exact lookupRow_upsert _ _ _

/-- Witness for claim C7 on the spec example maps a:1,b:2 and b:2,a:1. -/
theorem cacheKey_order_independent_witness :
    generateCacheKey (fun l => l) "/e" [("a", JVal.jnum 1), ("b", JVal.jnum 2)] =
      generateCacheKey (fun l => l) "/e" [("b", JVal.jnum 2), ("a", JVal.jnum 1)] ∧
    (saveToCache (fun l => l) (saveToCache (fun l => l)
        ([] : List (List Char × CacheRow String)) "/e"
        [("a", JVal.jnum 1), ("b", JVal.jnum 2)] "v1" 60000 0) "/e"
        [("b", JVal.jnum 2), ("a", JVal.jnum 1)] "v2" 60000 5).length =
      (saveToCache (fun l => l) ([] : List (List Char × CacheRow String)) "/e"
        [("a", JVal.jnum 1), ("b", JVal.jnum 2)] "v1" 60000 0).length ∧
    lookupRow (saveToCache (fun l => l) (saveToCache (fun l => l)
        ([] : List (List Char × CacheRow String)) "/e"
        [("a", JVal.jnum 1), ("b", JVal.jnum 2)] "v1" 60000 0) "/e"
        [("b", JVal.jnum 2), ("a", JVal.jnum 1)] "v2" 60000 5)
        (generateCacheKey (fun l => l) "/e" [("a", JVal.jnum 1), ("b", JVal.jnum 2)]) =
      some { endpoint := "/e", data := "v2", created_at := 5, expires_at := 5 + 60000,
             access_count := 0, last_accessed := 5 } :=
  cacheKey_order_independent (fun l => l) "/e"
    [("a", JVal.jnum 1), ("b", JVal.jnum 2)] [("b", JVal.jnum 2), ("a", JVal.jnum 1)]
    (List.Perm.swap ("b", JVal.jnum 2) ("a", JVal.jnum 1) [])
    (by decide) [] "v1" "v2" 60000 0 60000 5

/-! ## Claim C10: null and undefined parameters are dropped from the key -/

/-- Prepending a binding whose value is null or undefined to a parameter
object leaves the cache key unchanged. -/
theorem generateCacheKey_cons_dead {κ : Type} (digest : List Char → κ) (e : String)
    (k : String) (dv : JVal) (q : List (String × JVal))
    (hv : dv = JVal.jnull ∨ dv = JVal.jundef) (hk : k ∉ q.map Prod.fst) :
    generateCacheKey digest e ((k, dv) :: q) = generateCacheKey digest e q := by
  unfold generateCacheKey cacheKeyInput filteredSortedParams
  congr 2
  simp only [List.map_cons, List.insertionSort]
  rw [List.orderedInsert_eq_take_drop, List.filterMap_append, List.filterMap_cons]
  have hlk : ((k, dv) :: q).lookup k = some dv := by
    rw [List.lookup_cons]
    simp
  have hdead : (match ((k, dv) :: q).lookup k with
      | some v => if v ≠ JVal.jundef ∧ v ≠ JVal.jnull then some (k, v) else none
      | none => none) = none := by
    rw [hlk]
    rcases hv with h | h <;> subst h <;> simp
  rw [hdead]
  have hagree : ∀ x ∈ List.insertionSort (fun a b : String => a ≤ b) (q.map Prod.fst),
      (match ((k, dv) :: q).lookup x with
        | some v => if v ≠ JVal.jundef ∧ v ≠ JVal.jnull then some (x, v) else none
        | none => none) =
      (match q.lookup x with
        | some v => if v ≠ JVal.jundef ∧ v ≠ JVal.jnull then some (x, v) else none
        | none => none) := by
    intro x hx
    have hxq : x ∈ q.map Prod.fst :=
      (List.perm_insertionSort (fun a b : String => a ≤ b) (q.map Prod.fst)).mem_iff.mp hx
    have hxk : (x == k) = false := by
      simp only [beq_eq_false_iff_ne, ne_eq]
      intro hEq
      exact hk (hEq ▸ hxq)
    rw [List.lookup_cons, hxk]
  have hT := fun x hx => hagree x
    ((List.takeWhile_sublist (fun b => decide ¬ k ≤ b)).mem hx)
  have hD := fun x hx => hagree x
    ((List.dropWhile_sublist (fun b => decide ¬ k ≤ b)).mem hx)
  rw [List.filterMap_congr hT, List.filterMap_congr hD, ← List.filterMap_append,
    List.takeWhile_append_dropWhile]

/-- Claim C10: the cache key derivation drops every parameter bound to null
or undefined, so a map containing such a binding produces the same key as the
map without it, and a get with the null-carrying map hits the entry saved
under the map without it. -/
theorem cacheKey_drops_null {κ π : Type} [DecidableEq κ] (digest : List Char → κ)
    (e : String) (k : String) (dv : JVal) (p1 p2 : List (String × JVal))
    (hv : dv = JVal.jnull ∨ dv = JVal.jundef) (hk : k ∉ (p1 ++ p2).map Prod.fst)
    (hnd : ((p1 ++ p2).map Prod.fst).Nodup) (store : List (κ × CacheRow π)) (payload : π)
    (ttl now : ℚ) (httl : 0 < ttl) :
    generateCacheKey digest e (p1 ++ (k, dv) :: p2) = generateCacheKey digest e (p1 ++ p2) ∧
    (getFromCache digest (saveToCache digest store e (p1 ++ p2) payload ttl now) e
        (p1 ++ (k, dv) :: p2) now).1 =
      some { data := payload, cached_at := now, expires_at := now + ttl } := by
  have hperm : (p1 ++ (k, dv) :: p2).Perm ((k, dv) :: (p1 ++ p2)) := List.perm_middle
  have hnd1 : ((p1 ++ (k, dv) :: p2).map Prod.fst).Nodup := by
    rw [(hperm.map Prod.fst).nodup_iff]
    simp only [List.map_cons]
    exact List.nodup_cons.mpr ⟨by simpa using hk, hnd⟩
  have hkey : generateCacheKey digest e (p1 ++ (k, dv) :: p2) =
      generateCacheKey digest e (p1 ++ p2) :=
    (generateCacheKey_perm digest e hperm hnd1).trans
      (generateCacheKey_cons_dead digest e k dv (p1 ++ p2) hv hk)
  refine ⟨hkey, ?_⟩
  have hlook := lookupRow_upsert store (generateCacheKey digest e (p1 ++ p2))
    ({ endpoint := e, data := payload, created_at := now, expires_at := now + ttl,
       access_count := 0, last_accessed := now } : CacheRow π)
  unfold getFromCache saveToCache
  dsimp only
  rw [hkey, hlook]
  dsimp only
  rw [if_pos (by linarith : now < now + ttl)]

/-- Witness for claim C10 on the spec example: the map a:1 with b:null keys
the same entry as the map a:1 alone. -/
theorem cacheKey_drops_null_witness :
    generateCacheKey (fun l => l) "/e" ([("a", JVal.jnum 1)] ++ [("b", JVal.jnull)] ++ []) =
      generateCacheKey (fun l => l) "/e" ([("a", JVal.jnum 1)] ++ []) ∧
    (getFromCache (fun l => l) (saveToCache (fun l => l)
        ([] : List (List Char × CacheRow String)) "/e" ([("a", JVal.jnum 1)] ++ [])
        "payload" 60000 3) "/e" ([("a", JVal.jnum 1)] ++ [("b", JVal.jnull)] ++ []) 3).1 =
      some { data := "payload", cached_at := 3, expires_at := 3 + 60000 } :=
  cacheKey_drops_null (fun l => l) "/e" "b" JVal.jnull [("a", JVal.jnum 1)] []
    (Or.inl rfl) (by decide) (by decide) [] "payload" 60000 3 (by norm_num)

/-! ## Claim C8: tamper evidence of the audit hash -/

/-- Claim C8: for a collision-free digest, verifyAuditLogIntegrity returns
true when invoked immediately after logAuditEvent wrote the entry, and
returns false whenever the stored protected fields {timestamp, event_type,
endpoint, user_id, action} have been mutated to any different combination
after the write, because the stored hash is a digest of the serialisation of
exactly those five fields. -/
theorem audit_hash_tamper_evidence {β : Type} [DecidableEq β] (digest : List Char → β)
    (hinj : Function.Injective digest) (store : List (AuditRow β)) (e f : AuditFields)
    (hne : f ≠ e) :
    verifyAuditLogIntegrity digest (logAuditEvent digest store e) store.length = true ∧
    verifyAuditLogIntegrity digest
        (tamperRow (logAuditEvent digest store e) store.length f) store.length = false := by
  have hrow : (logAuditEvent digest store e)[store.length]? =
      some { fields := e, hash := generateAuditHash digest e } := by
    unfold logAuditEvent
    exact List.getElem?_concat_length _ _
  constructor
  · unfold verifyAuditLogIntegrity
    rw [hrow]
    simp
  · unfold tamperRow
    rw [hrow]
    unfold verifyAuditLogIntegrity
    have hlen : store.length < (logAuditEvent digest store e).length := by
      unfold logAuditEvent
      simp
    rw [List.getElem?_set_self hlen]
    have hne2 : generateAuditHash digest e ≠ generateAuditHash digest f := by
      intro hEq
      exact hne (auditContentChars_injective (hinj hEq)).symm
    simp [hne2]

/-- Witness for claim C8: with the identity digest, a concrete recorded entry
verifies, and the same entry with its action field rewritten in storage does
not. -/
theorem audit_hash_tamper_evidence_witness :
    verifyAuditLogIntegrity (fun l => l)
        (logAuditEvent (fun l => l) ([] : List (AuditRow (List Char)))
          { timestamp := 100, event_type := "API_REQUEST", endpoint := some "/x",
            user_id := none, action := some "read" }) 0 = true ∧
    verifyAuditLogIntegrity (fun l => l)
        (tamperRow (logAuditEvent (fun l => l) ([] : List (AuditRow (List Char)))
          { timestamp := 100, event_type := "API_REQUEST", endpoint := some "/x",
            user_id := none, action := some "read" }) 0
          { timestamp := 100, event_type := "API_REQUEST", endpoint := some "/x",
            user_id := none, action := some "write" }) 0 = false :=
  audit_hash_tamper_evidence (fun l => l) (fun _ _ h => h) []
    { timestamp := 100, event_type := "API_REQUEST", endpoint := some "/x",
      user_id := none, action := some "read" }
    { timestamp := 100, event_type := "API_REQUEST", endpoint := some "/x",
      user_id := none, action := some "write" }
    (by decide)

end FreeeSpec
